import Mathlib

/-!
Shallow embedding of the MQTT broker core (mqtt-rust-broker) used to check
the repository's natural-language specification.  Bytes are modelled as
`Nat` values below 256 (the Rust `u8` range); `u32` arithmetic in the
remaining-length decoder is modelled with explicit `% 2^32` reductions;
Rust functions that can panic on malformed input (out-of-range indexing,
`unwrap`) are modelled as `Option`-returning functions where `none` marks
the panic.
-/

namespace MqttBroker

/-- `MqttPacketType` from src/models/mqtt_types.rs: the 14 MQTT
control-packet kinds with their numeric discriminants 1..14. -/
inductive MqttPacketType where
  | Connect
  | ConnAck
  | Publish
  | PubAck
  | PubRec
  | PubRel
  | PubComp
  | Subscribe
  | SubAck
  | Unsubscribe
  | UnsubAck
  | PingReq
  | PingResp
  | Disconnect
  deriving DecidableEq, Repr

namespace MqttPacketType

/-- The numeric discriminant of each packet type (`as u8` in Rust). -/
def toU8 : MqttPacketType → Nat
  | .Connect => 1
  | .ConnAck => 2
  | .Publish => 3
  | .PubAck => 4
  | .PubRec => 5
  | .PubRel => 6
  | .PubComp => 7
  | .Subscribe => 8
  | .SubAck => 9
  | .Unsubscribe => 10
  | .UnsubAck => 11
  | .PingReq => 12
  | .PingResp => 13
  | .Disconnect => 14

/-- The nibble-to-packet-type match in `MqttHeaders::parse`
(src/models/mqtt_headers.rs, lines 35-51): values 1..14 map to the
packet kinds, anything else is an error. -/
def fromNibble : Nat → Option MqttPacketType
  | 1 => some .Connect
  | 2 => some .ConnAck
  | 3 => some .Publish
  | 4 => some .PubAck
  | 5 => some .PubRec
  | 6 => some .PubRel
  | 7 => some .PubComp
  | 8 => some .Subscribe
  | 9 => some .SubAck
  | 10 => some .Unsubscribe
  | 11 => some .UnsubAck
  | 12 => some .PingReq
  | 13 => some .PingResp
  | 14 => some .Disconnect
  | _ => none

end MqttPacketType

/-- `MqttHeaders` from src/models/mqtt_headers.rs: the MQTT fixed header.
`remaining_length` is a `u32` in Rust, `remaining_length_bytes` a `usize`. -/
structure MqttHeaders where
  packet_type : MqttPacketType
  flags : Nat
  remaining_length : Nat
  remaining_length_bytes : Nat
  deriving DecidableEq, Repr

namespace MqttHeaders

/-- `MqttHeaders::new` (src/models/mqtt_headers.rs, lines 18-25): note the
source hardcodes `remaining_length_bytes: 1` (its TODO comment). -/
def new (packet_type : MqttPacketType) (flags : Nat) (remaining_length : Nat) :
    MqttHeaders :=
  { packet_type := packet_type
    flags := flags
    remaining_length := remaining_length
    remaining_length_bytes := 1 }

/-- The `u32` modulus: the decoder's `value` and `multiplier` are `u32`. -/
def u32Mod : Nat := 4294967296

/-- The remaining-length decode loop of `MqttHeaders::parse`
(src/models/mqtt_headers.rs, lines 55-66), one step per buffer byte from
offset 1: `value += (byte & 127) * multiplier; multiplier *= 128;` then
break when the continuation bit (0x80) is clear.  `index` tracks the Rust
loop's `index` variable; exhausting the list corresponds to the `while`
condition failing, which leaves `index` at the buffer length. -/
def decodeRemLen : List Nat → Nat → Nat → Nat → Nat × Nat
  | [], index, value, _ => (value, index)
  | b :: rest, index, value, multiplier =>
      let value' := (value + (b % 128) * multiplier) % u32Mod
      let multiplier' := (multiplier * 128) % u32Mod
      if Nat.land b 128 = 0 then (value', index)
      else decodeRemLen rest (index + 1) value' multiplier'

/-- `MqttHeaders::parse` (src/models/mqtt_headers.rs, lines 28-75):
byte 0's high nibble is the packet type, its low nibble the flags, and the
bytes from offset 1 feed the remaining-length decode loop. -/
def parse (buffer : List Nat) : Except String MqttHeaders :=
  if buffer.length < 2 then
    .error "Buffer is too short to contain an MQTT Fixed Header"
  else
    match buffer with
    | [] => .error "Buffer is too short to contain an MQTT Fixed Header"
    | byte1 :: rest =>
      match MqttPacketType.fromNibble (byte1 / 16) with
      | none => .error "Invalid MQTT Packet Type"
      | some packet_type =>
        let flags := byte1 % 16
        let (value, index) := decodeRemLen rest 1 0 1
        .ok { packet_type := packet_type
              flags := flags
              remaining_length := value
              remaining_length_bytes := index }

/-- The remaining-length encode loop of `MqttHeaders::to_bytes`
(src/models/mqtt_headers.rs, lines 84-95): emit `remaining_length % 128`,
set the continuation bit when more groups follow, continue with
`remaining_length / 128`; always emits at least one byte. -/
def encodeRemLen (remaining_length : Nat) : List Nat :=
  if remaining_length < 128 then [remaining_length]
  else (remaining_length % 128 + 128) :: encodeRemLen (remaining_length / 128)
  decreasing_by exact Nat.div_lt_self (by omega) (by omega)

/-- `MqttHeaders::to_bytes` (src/models/mqtt_headers.rs, lines 77-98):
byte 0 is `(packet_type as u8) << 4 | (flags & 0x0F)` (on the `u8` range
this is `toU8 * 16 + flags % 16`), followed by the encoded remaining
length. -/
def to_bytes (h : MqttHeaders) : List Nat :=
  (h.packet_type.toU8 * 16 + h.flags % 16) :: encodeRemLen h.remaining_length

end MqttHeaders

/-- `ConnectHeader` from src/models/mqtt_headers.rs. -/
structure ConnectHeader where
  protocol_name : String
  protocol_level : Nat
  connect_flags : Nat
  keep_alive : Nat
  deriving DecidableEq, Repr

/-- `PublishHeader` from src/models/mqtt_headers.rs. -/
structure PublishHeader where
  topic_name : String
  packet_id : Nat
  deriving DecidableEq, Repr

/-- `SubscribeHeader` from src/models/mqtt_headers.rs. -/
structure SubscribeHeader where
  packet_id : Nat
  deriving DecidableEq, Repr

/-- `ConnAckHeader` from src/models/mqtt_headers.rs. -/
structure ConnAckHeader where
  session_present : Bool
  return_code : Nat
  deriving DecidableEq, Repr

/-- UTF-8 validation/decoding as performed by Rust's
`String::from_utf8`: ASCII bytes stand alone; 2-byte sequences have lead
0xC2..0xDF; 3-byte sequences exclude overlong forms (lead 0xE0 needs a
first continuation in 0xA0..0xBF) and surrogates (lead 0xED caps it at
0x9F); 4-byte sequences have lead 0xF0..0xF4 with the matching first
continuation ranges.  Returns `none` on invalid input (where Rust's
`.unwrap()` would panic). -/
def utf8DecodeChars : List Nat → Option (List Char)
  | [] => some []
  | b0 :: rest =>
    if b0 < 128 then
      (utf8DecodeChars rest).map (fun cs => Char.ofNat b0 :: cs)
    else if b0 < 194 then none
    else if b0 < 224 then
      match rest with
      | b1 :: rest1 =>
        if 128 ≤ b1 ∧ b1 < 192 then
          (utf8DecodeChars rest1).map
            (fun cs => Char.ofNat ((b0 - 192) * 64 + (b1 - 128)) :: cs)
        else none
      | [] => none
    else if b0 < 240 then
      match rest with
      | b1 :: b2 :: rest2 =>
        let lo1 := if b0 = 224 then 160 else 128
        let hi1 := if b0 = 237 then 160 else 192
        if (lo1 ≤ b1 ∧ b1 < hi1) ∧ (128 ≤ b2 ∧ b2 < 192) then
          (utf8DecodeChars rest2).map
            (fun cs =>
              Char.ofNat ((b0 - 224) * 4096 + (b1 - 128) * 64 + (b2 - 128)) :: cs)
        else none
      | _ => none
    else if b0 < 245 then
      match rest with
      | b1 :: b2 :: b3 :: rest3 =>
        let lo1 := if b0 = 240 then 144 else 128
        let hi1 := if b0 = 244 then 144 else 192
        if (lo1 ≤ b1 ∧ b1 < hi1) ∧ (128 ≤ b2 ∧ b2 < 192) ∧
            (128 ≤ b3 ∧ b3 < 192) then
          (utf8DecodeChars rest3).map
            (fun cs =>
              Char.ofNat ((b0 - 240) * 262144 + (b1 - 128) * 4096 +
                (b2 - 128) * 64 + (b3 - 128)) :: cs)
        else none
      | _ => none
    else none

/-- `String::from_utf8(bytes)` as an `Option` (none = `Err`, which the
source always `unwrap`s into a panic). -/
def stringFromUtf8 (bytes : List Nat) : Option String :=
  (utf8DecodeChars bytes).map (fun cs => String.mk cs)

namespace ConnectHeader

/-- `ConnectHeader::new` (src/models/mqtt_headers.rs, lines 191-201).  The
source's guard is `protocol_name.len() != 4 && protocol_name != "MQTT"`
(a conjunction, exactly as written), with `len()` the UTF-8 byte length. -/
def new (protocol_name : String) (protocol_level : Nat) (connect_flags : Nat)
    (keep_alive : Nat) : Except String ConnectHeader :=
  if protocol_name.utf8ByteSize ≠ 4 ∧ protocol_name ≠ "MQTT" then
    .error "Invalid Protocol Name"
  else
    .ok { protocol_name := protocol_name
          protocol_level := protocol_level
          connect_flags := connect_flags
          keep_alive := keep_alive }

/-- `ConnectHeader::from_bytes` (src/models/mqtt_headers.rs, lines
203-232): 4-byte protocol name (`String::from_utf8(..).unwrap()`), 1-byte
level, 1-byte flags, 2-byte big-endian keep-alive, then
`ConnectHeader::new(..).unwrap()`.  `none` marks a panic: out-of-range
slicing/indexing when `data` is shorter than 8 bytes, invalid UTF-8, or
an `Err` from `new`. -/
def from_bytes (data : List Nat) : Option ConnectHeader :=
  if data.length < 4 then none
  else
    match stringFromUtf8 (data.take 4) with
    | none => none
    | some protocol_name =>
      if data.length < 8 then none
      else
        let protocol_level := data.getD 4 0
        let connect_flags := data.getD 5 0
        let keep_alive := data.getD 6 0 * 256 + data.getD 7 0
        match new protocol_name protocol_level connect_flags keep_alive with
        | .ok h => some h
        | .error _ => none

end ConnectHeader

namespace ConnAckHeader

/-- `ConnAckHeader::new` (src/models/mqtt_headers.rs, lines 243-248). -/
def new (session_present : Bool) (return_code : Nat) : ConnAckHeader :=
  { session_present := session_present, return_code := return_code }

/-- `ConnAckHeader::to_bytes` (src/models/mqtt_headers.rs, lines 260-270):
byte 0 is 1 when session-present else 0, byte 1 the return code. -/
def to_bytes (h : ConnAckHeader) : List Nat :=
  [if h.session_present then 1 else 0, h.return_code]

end ConnAckHeader

namespace PublishHeader

/-- `PublishHeader::from_bytes` (src/models/mqtt_headers.rs, lines
286-309): the source reads only `data[0]` as the topic-name length while
advancing the cursor by 2, then the topic-name bytes, then a 2-byte
big-endian packet id.  `none` marks a panic (out-of-range index/slice or
invalid UTF-8). -/
def from_bytes (data : List Nat) : Option PublishHeader :=
  if data.length < 1 then none
  else
    let topic_name_length := data.getD 0 0
    if 2 + topic_name_length > data.length then none
    else
      match stringFromUtf8 ((data.drop 2).take topic_name_length) with
      | none => none
      | some topic_name =>
        let idx := 2 + topic_name_length
        if idx + 1 < data.length then
          some { topic_name := topic_name
                 packet_id := data.getD idx 0 * 256 + data.getD (idx + 1) 0 }
        else none

end PublishHeader

/-- `ConnectPayload` from src/models/mqtt_payloads.rs: all five fields are
`Option<String>` in the source. -/
structure ConnectPayload where
  client_id : Option String
  will_topic : Option String
  will_message : Option String
  username : Option String
  password : Option String
  deriving DecidableEq, Repr

/-- `SubscribePayload` from src/models/mqtt_payloads.rs. -/
structure SubscribePayload where
  subscription_topic : String
  qos : Nat
  deriving DecidableEq, Repr

/-- `Payload` from src/models/mqtt_payloads.rs: the sum of the payload
kinds; `Conn` carries a `ConnectPayload`, `Pub` the raw publish bytes,
`Sub` a `SubscribePayload`, and `Empty` is the source's `Default` variant
(an empty struct). -/
inductive Payload where
  | Conn (p : ConnectPayload)
  | Pub (payload : List Nat)
  | Sub (p : SubscribePayload)
  | Empty
  deriving DecidableEq, Repr

/-- The `VariableHeader` trait objects dispatched on by
`PayloadFactory::parse_payload` (downcast chain over the four concrete
header types), modelled as a tagged sum. -/
inductive VariableHeader where
  | connectHdr (h : ConnectHeader)
  | publishHdr (h : PublishHeader)
  | subscribeHdr (h : SubscribeHeader)
  | connAckHdr (h : ConnAckHeader)
  deriving DecidableEq, Repr

namespace PayloadFactory

/-- `PayloadFactory::extract_utf8_string` (src/models/mqtt_payloads.rs,
lines 44-50): reads a 2-byte big-endian length at `start_idx`
(`data[i] << 8 | data[i+1]`, bytes being `u8`), then the string bytes,
returning (length, string, advanced index).  `none` marks a panic:
out-of-range indexing/slicing or invalid UTF-8. -/
def extract_utf8_string (payload_data : List Nat) (start_idx : Nat) :
    Option (Nat × String × Nat) :=
  if start_idx + 1 < payload_data.length then
    let string_length :=
      payload_data.getD start_idx 0 * 256 + payload_data.getD (start_idx + 1) 0
    if start_idx + 2 + string_length ≤ payload_data.length then
      match stringFromUtf8 ((payload_data.drop (start_idx + 2)).take string_length) with
      | some s => some (string_length, s, start_idx + 2 + string_length)
      | none => none
    else none
  else none

/-- `WILL_FLAG` (0b00000100). -/
def WILL_FLAG : Nat := 4
/-- `USER_NAME_FLAG` (0b10000000). -/
def USER_NAME_FLAG : Nat := 128
/-- `PASSWORD_FLAG` (0b01000000). -/
def PASSWORD_FLAG : Nat := 64
/-- `QOS_MASK_VALID` (0b00000011). -/
def QOS_MASK_VALID : Nat := 3
/-- `QOS_MASK_INVALID` (0b11111100). -/
def QOS_MASK_INVALID : Nat := 252

/-- `PayloadFactory::parse_payload` (src/models/mqtt_payloads.rs, lines
52-130).  For a Connect header: extracts the client id, *logs* (but does
not fail on) a zero-length or over-23-byte id, then extracts will
topic/message, username and password exactly when the corresponding
connect-flag bit is set, defaulting the skipped ones to the empty string,
and wraps every field in `Some`.  For a Publish header: the raw bytes.
For a Subscribe header: one string plus a QoS byte whose top 6 bits are
only logged when set, then masked to the low 2 bits.  Any other header
kind yields the `Default` (here `Empty`) payload.  `none` marks a panic
inside `extract_utf8_string` or the QoS-byte index. -/
def parse_payload (variable_header : VariableHeader) (payload_data : List Nat) :
    Option Payload :=
  match variable_header with
  | .connectHdr connect_header => do
      let (_, client_id, idx1) ← extract_utf8_string payload_data 0
      let (will_topic, will_message, idx2) ←
        if Nat.land connect_header.connect_flags WILL_FLAG ≠ 0 then do
          let (_, wt, ia) ← extract_utf8_string payload_data idx1
          let (_, wm, ib) ← extract_utf8_string payload_data ia
          pure (wt, wm, ib)
        else pure ("", "", idx1)
      let (user_name, idx3) ←
        if Nat.land connect_header.connect_flags USER_NAME_FLAG ≠ 0 then do
          let (_, un, ic) ← extract_utf8_string payload_data idx2
          pure (un, ic)
        else pure ("", idx2)
      let (password, _) ←
        if Nat.land connect_header.connect_flags PASSWORD_FLAG ≠ 0 then do
          let (_, pw, id') ← extract_utf8_string payload_data idx3
          pure (pw, id')
        else pure ("", idx3)
      pure (Payload.Conn
        { client_id := some client_id
          will_topic := some will_topic
          will_message := some will_message
          username := some user_name
          password := some password })
  | .publishHdr _ => some (Payload.Pub payload_data)
  | .subscribeHdr _ => do
      let (_, subscription_topic, idx) ← extract_utf8_string payload_data 0
      if idx < payload_data.length then
        let qos := payload_data.getD idx 0
        pure (Payload.Sub
          { subscription_topic := subscription_topic
            qos := Nat.land qos QOS_MASK_VALID })
      else none
  | .connAckHdr _ => some Payload.Empty

end PayloadFactory

/-- `Connect` packet from src/models/packets/connect.rs. -/
structure Connect where
  fixed_header : MqttHeaders
  variable_header : ConnectHeader
  payload : Payload
  deriving DecidableEq, Repr

/-- `ConnAck` packet from src/models/packets/connack.rs. -/
structure ConnAck where
  fixed_header : MqttHeaders
  variable_header : ConnAckHeader
  payload : Payload
  deriving DecidableEq, Repr

/-- `Publish` packet from src/models/packets/publish.rs. -/
structure Publish where
  fixed_header : MqttHeaders
  variable_header : PublishHeader
  payload : Payload
  deriving DecidableEq, Repr

namespace ConnAck

/-- `ConnAck::new_success` (src/models/packets/connack.rs, lines 38-48).
The source's session-present test is literally
`connect_header.connect_flags & 0b00000010 == 1` (comparing the masked
value against 1, exactly as written), the fixed header is
`MqttHeaders::new(ConnAck, 0b0000, 2)` and the return code 0. -/
def new_success (connect_header : ConnectHeader) : ConnAck :=
  let sp_rc :=
    if Nat.land connect_header.connect_flags 2 = 1 then (false, 0)
    else (true, 0)
  { fixed_header := MqttHeaders.new .ConnAck 0 2
    variable_header := ConnAckHeader.new sp_rc.1 sp_rc.2
    payload := Payload.Empty }

/-- `ConnAck::to_bytes` (src/models/packets/connack.rs, lines 29-36):
fixed-header bytes followed by variable-header bytes. -/
def to_bytes (c : ConnAck) : List Nat :=
  c.fixed_header.to_bytes ++ c.variable_header.to_bytes

end ConnAck

namespace PublishHeader

/-- Modelled from the spec: `PublishHeader::to_bytes` is called by
`Publish::to_bytes` (src/models/packets/publish.rs, line 32) but its
definition is not under src/.  Per the spec's wire format, the Publish
variable header is the 2-byte big-endian length-prefixed topic name
followed by the 2-byte big-endian packet id. -/
def to_bytes (h : PublishHeader) : List Nat :=
  let topicBytes := (h.topic_name.toList.map Char.toNat)
  [topicBytes.length / 256, topicBytes.length % 256] ++ topicBytes ++
    [h.packet_id / 256, h.packet_id % 256]

/-- Modelled from the spec: `PublishHeader::get_topic_name` is called by
`Broker::run` (src/models/broker.rs, line 96) but its definition is not
under src/.  Per the spec, the broker "resolves the topic name from the
variable header", which holds a single `topic_name` field. -/
def get_topic_name (h : PublishHeader) : String :=
  h.topic_name

end PublishHeader

namespace MqttHeaders

/-- Modelled from the spec: `MqttHeaders::get_qos_level` is called by
`Broker::run` (src/models/broker.rs, line 125) but its definition is not
under src/.  Per the spec, publish delivery "is keyed by the fixed
header's QoS bits" in the flags nibble; in MQTT 3.1.1 these are bits 1-2
of the flags. -/
def get_qos_level (h : MqttHeaders) : Nat :=
  h.flags / 2 % 4

end MqttHeaders

namespace Publish

/-- `Publish::to_bytes` (src/models/packets/publish.rs, lines 30-39):
fixed-header bytes, variable-header bytes, then the raw publish payload.
`none` marks the `panic!` branch taken when the payload is not a
`Publish` payload. -/
def to_bytes (p : Publish) : Option (List Nat) :=
  match p.payload with
  | .Pub payload_bytes =>
      some (p.fixed_header.to_bytes ++ p.variable_header.to_bytes ++ payload_bytes)
  | _ => none

end Publish

namespace Publish

/-- `Publish::from_bytes` (src/models/packets/publish.rs, lines 23-28):
fixed-header parse over the whole frame, `PublishHeader::from_bytes` over
`&data[2..]`, payload parse over `&data[10..]`, then
`fixed_header.unwrap()`.  `none` marks a panic: the `&data[2..]` or
`&data[10..]` slice being out of range, a panic inside
`PublishHeader::from_bytes`, or the `unwrap` of a failed fixed-header
parse. -/
def from_bytes (data : List Nat) : Option Publish :=
  let fixed_header := MqttHeaders.parse data
  if data.length < 2 then none
  else
    match PublishHeader.from_bytes (data.drop 2) with
    | none => none
    | some variable_header =>
      if data.length < 10 then none
      else
        match PayloadFactory.parse_payload (.publishHdr variable_header) (data.drop 10) with
        | none => none
        | some payload =>
          match fixed_header with
          | .ok fh => some { fixed_header := fh
                             variable_header := variable_header
                             payload := payload }
          | .error _ => none

end Publish

namespace MqttHeaders

/-- Specification-side value of a remaining-length byte sequence:
`remLenSum [b0, b1, ...] = (b0 & 0x7F)·128^0 + (b1 & 0x7F)·128^1 + ...`,
written in Horner form. -/
def remLenSum : List Nat → Nat
  | [] => 0
  | b :: rest => b % 128 + 128 * remLenSum rest

/-- The bytes the decode loop consumes: every byte up to and including
the first one with the continuation bit (0x80) clear, or the whole list
when no such byte exists. -/
def consumedBytes : List Nat → List Nat
  | [] => []
  | b :: rest =>
      if Nat.land b 128 = 0 then [b] else b :: consumedBytes rest

/-- Whether the byte list contains a terminating byte (continuation bit
clear). -/
def hasTerm : List Nat → Bool
  | [] => false
  | b :: rest => Nat.land b 128 = 0 || hasTerm rest

end MqttHeaders

/-- `ConnectionStatus` from src/models/broker.rs. -/
inductive ConnectionStatus where
  | Connected
  | Disconnected
  | AwaitingReconnect
  deriving DecidableEq, Repr

/-- `ClientState` from src/models/broker.rs.  `last_seen` (a `SystemTime`
in the source) and `keep_alive` (a `Duration` in seconds) are modelled as
naturals; the `mpsc::Sender<Message>` outbound capability is modelled by
a channel identity. -/
structure ClientState where
  client_id : String
  connected_status : ConnectionStatus
  subscriptions : List String
  last_seen : Nat
  keep_alive : Nat
  ws_sender : Nat
  deriving DecidableEq, Repr

namespace ClientState

/-- `ClientState::new` (src/models/broker.rs, lines 28-37): status
Connected, empty subscription set, `last_seen` = now. -/
def new (client_id : String) (keep_alive : Nat) (ws_sender : Nat) (now : Nat) :
    ClientState :=
  { client_id := client_id
    connected_status := .Connected
    subscriptions := []
    last_seen := now
    keep_alive := keep_alive
    ws_sender := ws_sender }

/-- `ClientState::update_last_seen` (src/models/broker.rs, lines 39-41). -/
def update_last_seen (c : ClientState) (now : Nat) : ClientState :=
  { c with last_seen := now }

/-- `ClientState::publish` (src/models/broker.rs, lines 47-50): sends the
publish packet's `to_bytes` on the client's outbound channel; the
resulting delivery event is (channel, bytes).  `none` if `to_bytes`
panics. -/
def publish (c : ClientState) (p : Publish) : Option (Nat × List Nat) :=
  (p.to_bytes).map (fun bytes => (c.ws_sender, bytes))

end ClientState

/-- The broker's client registry: the `HashMap<String, ClientState>`
modelled as an association list (entries in insertion order, keys unique
under the `HashMap` invariant). -/
abbrev Registry := List (String × ClientState)

namespace Registry

/-- `HashMap::contains_key`. -/
def containsKey : Registry → String → Bool
  | [], _ => false
  | (k, _) :: rest, cid => k == cid || containsKey rest cid

/-- `HashMap::get`. -/
def lookup : Registry → String → Option ClientState
  | [], _ => none
  | (k, v) :: rest, cid => if k == cid then some v else lookup rest cid

/-- `HashMap::insert`: replaces the entry for an existing key, otherwise
appends a fresh entry. -/
def insert : Registry → String → ClientState → Registry
  | [], cid, cs => [(cid, cs)]
  | (k, v) :: rest, cid, cs =>
      if k == cid then (cid, cs) :: rest else (k, v) :: insert rest cid cs

/-- How many entries a registry holds for a given id. -/
def countKey (r : Registry) (cid : String) : Nat :=
  (r.map Prod.fst).count cid

end Registry

namespace Broker

/-- `Broker::add_client` (src/models/broker.rs, lines 162-166):
`Duration::from_secs(keep_alive)` then a fresh `ClientState` inserted
under the id. -/
def add_client (clients : Registry) (client_id : String) (keep_alive : Nat)
    (ws_sender : Nat) (now : Nat) : Registry :=
  Registry.insert clients client_id (ClientState.new client_id keep_alive ws_sender now)

/-- `Broker::is_client_connected` (src/models/broker.rs, lines 184-186):
`self.clients.contains_key(client_id)`. -/
def is_client_connected (clients : Registry) (client_id : String) : Bool :=
  Registry.containsKey clients client_id

/-- `Broker::get_client` (src/models/broker.rs, lines 180-182). -/
def get_client (clients : Registry) (client_id : String) : Option ClientState :=
  Registry.lookup clients client_id

/-- The `BrokerCommand::Connect` arm of `Broker::run`
(src/models/broker.rs, lines 62-79): a non-Connect payload answers
`Err("Invalid payload")` with no mutation; a missing client id answers
`Err("Client ID not provided")` with no mutation; otherwise `add_client`
installs a fresh entry (evicting any entry under the same id, per
`HashMap::insert`) and the response is `ConnAck::new_success`. -/
def handleConnect (clients : Registry) (packet : Connect) (ws_sender : Nat)
    (now : Nat) : Registry × Except String ConnAck :=
  match packet.payload with
  | .Conn connect_payload =>
      match connect_payload.client_id with
      | some client_id =>
          (add_client clients client_id packet.variable_header.keep_alive ws_sender now,
           .ok (ConnAck.new_success packet.variable_header))
      | none => (clients, .error "Client ID not provided")
  | _ => (clients, .error "Invalid payload")

/-- Whether a registry entry matches a publish: its subscription set
contains the exact topic string and its status is Connected
(src/models/broker.rs, line 100). -/
def matchesTopic (cs : ClientState) (topic_name : String) : Bool :=
  cs.subscriptions.contains topic_name && cs.connected_status == .Connected

/-- Outcome of one `BrokerCommand::Publish`: the registry afterwards, the
delivery events (channel, bytes) pushed to outbound capabilities, and the
response sent on the command's responder (`none` when the source drops
the responder without answering). -/
structure PublishOutcome where
  clients : Registry
  sends : List (Nat × List Nat)
  response : Option (Except String Unit)
  deriving Repr

/-- The `BrokerCommand::Publish` arm of `Broker::run`
(src/models/broker.rs, lines 84-147): a non-Publish payload answers
`Err("Invalid payload")`; with no matching subscriber it answers
`Err("No subscribers found for topic")`; otherwise, for QoS 0 it updates
`last_seen` of every matching client — the source's loop body contains
only `client.update_last_seen()` (its `//send message to client` comment
is not followed by a send), so no delivery event is produced — and for
QoS 1, QoS 2 or an invalid level it does nothing; in all these QoS cases
the responder is dropped unanswered. -/
def handlePublish (clients : Registry) (packet : Publish) (now : Nat) :
    PublishOutcome :=
  match packet.payload with
  | .Pub _ =>
      let topic_name := packet.variable_header.get_topic_name
      if clients.all (fun kv => !(matchesTopic kv.2 topic_name)) then
        { clients := clients
          sends := []
          response := some (.error "No subscribers found for topic") }
      else
        match packet.fixed_header.get_qos_level with
        | 0 =>
            { clients := clients.map (fun kv =>
                if matchesTopic kv.2 topic_name then
                  (kv.1, kv.2.update_last_seen now)
                else kv)
              sends := []
              response := none }
        | _ => { clients := clients, sends := [], response := none }
  | _ => { clients := clients, sends := [], response := some (.error "Invalid payload") }

end Broker

/-! ### Helper lemmas -/

/-- A byte below 128 has the continuation bit clear. -/
theorem land128_of_lt : ∀ b < 128, Nat.land b 128 = 0 := by decide

/-- Adding the continuation bit to a 7-bit group sets it. -/
theorem land128_of_cont : ∀ b < 128, Nat.land (b + 128) 128 = 128 := by decide

/-- `encodeRemLen` always emits at least one byte. -/
theorem encodeRemLen_length_pos (v : Nat) :
    1 ≤ (MqttHeaders.encodeRemLen v).length := by
  rw [MqttHeaders.encodeRemLen]
  split <;> simp

/-- The decode loop, explained: on any byte list it returns the
spec-level value of the consumed bytes (reduced mod 2^32, the `u32`
arithmetic) and the final index: the position of the terminating byte
when one exists, or the position one past the last byte when the list is
exhausted. -/
theorem decodeRemLen_spec :
    ∀ (bytes : List Nat) (index value mult : Nat), value < MqttHeaders.u32Mod →
    MqttHeaders.decodeRemLen bytes index value mult =
      ((value + mult * MqttHeaders.remLenSum (MqttHeaders.consumedBytes bytes)) %
          MqttHeaders.u32Mod,
       if MqttHeaders.hasTerm bytes then
         index + (MqttHeaders.consumedBytes bytes).length - 1
       else index + bytes.length) := by
  intro bytes
  induction bytes with
  | nil =>
      intro index value mult hv
      simp [MqttHeaders.decodeRemLen, MqttHeaders.consumedBytes,
        MqttHeaders.remLenSum, MqttHeaders.hasTerm, Nat.mod_eq_of_lt hv]
  | cons b rest ih =>
      intro index value mult hv
      by_cases hb : Nat.land b 128 = 0
      · simp [MqttHeaders.decodeRemLen, MqttHeaders.consumedBytes,
          MqttHeaders.remLenSum, MqttHeaders.hasTerm, hb]
        ring_nf
      · have hrec := ih (index + 1)
          ((value + b % 128 * mult) % MqttHeaders.u32Mod)
          (mult * 128 % MqttHeaders.u32Mod)
          (Nat.mod_lt _ (by norm_num [MqttHeaders.u32Mod]))
        simp only [MqttHeaders.decodeRemLen, MqttHeaders.consumedBytes,
          MqttHeaders.remLenSum, MqttHeaders.hasTerm, hb, if_false]
        rw [hrec]
        simp only [Prod.mk.injEq]
        constructor
        · have h1 : (value + b % 128 * mult) % MqttHeaders.u32Mod ≡
              value + b % 128 * mult [MOD MqttHeaders.u32Mod] :=
            Nat.mod_modEq _ _
          have h2 : mult * 128 % MqttHeaders.u32Mod *
              MqttHeaders.remLenSum (MqttHeaders.consumedBytes rest) ≡
              mult * 128 *
                MqttHeaders.remLenSum (MqttHeaders.consumedBytes rest)
                [MOD MqttHeaders.u32Mod] :=
            (Nat.mod_modEq _ _).mul_right _
          have h3 := h1.add h2
          rw [h3]
          ring_nf
        · by_cases ht : MqttHeaders.hasTerm rest = true <;> (simp [ht]; try omega)

/-- The base-128 encoding decodes (at the spec level) to the encoded
value. -/
theorem remLenSum_encode (v : Nat) :
    MqttHeaders.remLenSum (MqttHeaders.encodeRemLen v) = v := by
  induction v using Nat.strong_induction_on with
  | _ v ih =>
    rw [MqttHeaders.encodeRemLen]
    split
    · simp [MqttHeaders.remLenSum]
      omega
    · rw [MqttHeaders.remLenSum, ih (v / 128) (Nat.div_lt_self (by omega) (by omega))]
      omega

/-- The decode loop consumes every byte the encoder emits (the last
emitted byte is the terminator). -/
theorem consumedBytes_encode (v : Nat) :
    MqttHeaders.consumedBytes (MqttHeaders.encodeRemLen v) =
      MqttHeaders.encodeRemLen v := by
  induction v using Nat.strong_induction_on with
  | _ v ih =>
    rw [MqttHeaders.encodeRemLen]
    split
    · next hlt => simp [MqttHeaders.consumedBytes, land128_of_lt v hlt]
    · next hge =>
      rw [MqttHeaders.consumedBytes,
        if_neg (by rw [land128_of_cont (v % 128) (Nat.mod_lt _ (by omega))]; omega),
        ih (v / 128) (Nat.div_lt_self (by omega) (by omega))]

/-- The encoder always emits a terminating byte. -/
theorem hasTerm_encode (v : Nat) :
    MqttHeaders.hasTerm (MqttHeaders.encodeRemLen v) = true := by
  induction v using Nat.strong_induction_on with
  | _ v ih =>
    rw [MqttHeaders.encodeRemLen]
    split
    · next hlt => simp [MqttHeaders.hasTerm, land128_of_lt v hlt]
    · next hge =>
      rw [MqttHeaders.hasTerm, ih (v / 128) (Nat.div_lt_self (by omega) (by omega))]
      simp

/-- The nibble written by `to_bytes` maps back to the same packet type. -/
theorem fromNibble_toU8 (pt : MqttPacketType) :
    MqttPacketType.fromNibble pt.toU8 = some pt := by
  cases pt <;> rfl

/-! ### Claim theorems -/

/-- C3: for every valid fixed header `h` (any of the 14 packet kinds,
4-bit flags, remaining length encodable in 1-4 base-128 bytes, and
`remaining_length_bytes` equal to the encoded length),
`parse (to_bytes h) = ok h`. -/
theorem fixed_header_roundtrip (h : MqttHeaders) (hflags : h.flags < 16)
    (hrl : h.remaining_length < 128 ^ 4)
    (hrlb : h.remaining_length_bytes =
      (MqttHeaders.encodeRemLen h.remaining_length).length) :
    MqttHeaders.parse h.to_bytes = .ok h := by
  obtain ⟨pt, flags, rl, rlb⟩ := h
  simp only at hflags hrl hrlb
  have hlen := encodeRemLen_length_pos rl
  simp only [MqttHeaders.to_bytes, MqttHeaders.parse, List.length_cons]
  rw [if_neg (by omega)]
  have h1 : (pt.toU8 * 16 + flags % 16) / 16 = pt.toU8 := by omega
  have h2 : (pt.toU8 * 16 + flags % 16) % 16 = flags := by omega
  rw [h1, h2, fromNibble_toU8,
    decodeRemLen_spec _ 1 0 1 (by norm_num [MqttHeaders.u32Mod]),
    consumedBytes_encode, remLenSum_encode, hasTerm_encode]
  have h3 : rl % MqttHeaders.u32Mod = rl :=
    Nat.mod_eq_of_lt (by norm_num [MqttHeaders.u32Mod] at *; omega)
  have h4 : 1 + (MqttHeaders.encodeRemLen rl).length - 1 =
      (MqttHeaders.encodeRemLen rl).length := by omega
  simp [h3, h4, hrlb]

/-- C3 witness: the round-trip at a concrete valid header. -/
theorem fixed_header_roundtrip_witness :
    MqttHeaders.parse (MqttHeaders.to_bytes ⟨.Publish, 3, 16384, 3⟩) =
      .ok ⟨.Publish, 3, 16384, 3⟩ :=
  fixed_header_roundtrip ⟨.Publish, 3, 16384, 3⟩ (by decide) (by decide)
    (by rw [MqttHeaders.encodeRemLen]; norm_num
        rw [MqttHeaders.encodeRemLen]; norm_num
        rw [MqttHeaders.encodeRemLen]; norm_num)

/-- A list without a terminating byte is consumed whole. -/
theorem consumedBytes_of_no_term :
    ∀ l : List Nat, MqttHeaders.hasTerm l = false →
      MqttHeaders.consumedBytes l = l := by
  intro l
  induction l with
  | nil => intro _; rfl
  | cons b rest ih =>
      intro hterm
      simp only [MqttHeaders.hasTerm, Bool.or_eq_false_iff,
        decide_eq_false_iff_not] at hterm
      simp only [MqttHeaders.consumedBytes, if_neg hterm.1, ih hterm.2]

/-- C4 counterexample: the buffer `[0x10, 0x80]` exhausts its
remaining-length bytes without a terminating byte, yet `parse` returns
success (value 0, byte count 2 = the buffer length) — no
`MalformedLength` error exists in the code. -/
theorem parse_truncated_remaining_length_no_error :
    MqttHeaders.parse [16, 128] = .ok ⟨.Connect, 0, 0, 2⟩ := rfl

/-- C4 as amended: when the remaining-length bytes (from offset 1) are
exhausted before a byte with the continuation bit clear, fixed-header
parsing does not fail: it returns the value accumulated from all those
bytes (`Σ (byte & 0x7F)·128^i`, u32 arithmetic) with the byte count equal
to the buffer length; when a terminating byte exists, the decoded value
equals that sum over the consumed bytes and the count of consumed bytes
is returned with the value. -/
theorem remaining_length_decode_amended :
    (∀ (byte1 : Nat) (rest : List Nat) (pt : MqttPacketType),
        MqttPacketType.fromNibble (byte1 / 16) = some pt →
        1 ≤ rest.length →
        MqttHeaders.hasTerm rest = false →
        MqttHeaders.parse (byte1 :: rest) =
          .ok ⟨pt, byte1 % 16,
               MqttHeaders.remLenSum rest % MqttHeaders.u32Mod,
               1 + rest.length⟩) ∧
    (∀ (byte1 : Nat) (rest : List Nat) (pt : MqttPacketType),
        MqttPacketType.fromNibble (byte1 / 16) = some pt →
        MqttHeaders.hasTerm rest = true →
        MqttHeaders.parse (byte1 :: rest) =
          .ok ⟨pt, byte1 % 16,
               MqttHeaders.remLenSum (MqttHeaders.consumedBytes rest) %
                 MqttHeaders.u32Mod,
               (MqttHeaders.consumedBytes rest).length⟩) := by
  constructor
  · intro byte1 rest pt hpt hrest hterm
    simp only [MqttHeaders.parse, List.length_cons]
    rw [if_neg (by omega), hpt,
      decodeRemLen_spec rest 1 0 1 (by norm_num [MqttHeaders.u32Mod]),
      consumedBytes_of_no_term rest hterm, hterm]
    simp
  · intro byte1 rest pt hpt hterm
    have hrest : 1 ≤ rest.length := by
      cases rest with
      | nil => simp [MqttHeaders.hasTerm] at hterm
      | cons b r => simp
    simp only [MqttHeaders.parse, List.length_cons]
    rw [if_neg (by omega), hpt,
      decodeRemLen_spec rest 1 0 1 (by norm_num [MqttHeaders.u32Mod]), hterm]
    simp

/-- C4 amended witness: a truncated buffer (`[0x10, 0x81, 0x80]`, both
length bytes with the continuation bit set) parses to value 1 with byte
count 3, and a well-terminated buffer (`[0x30, 0x0A]`) parses to value 10
with one consumed length byte. -/
theorem remaining_length_decode_amended_witness :
    MqttHeaders.parse [16, 129, 128] = .ok ⟨.Connect, 0, 1, 3⟩ ∧
    MqttHeaders.parse [48, 10] = .ok ⟨.Publish, 0, 10, 1⟩ :=
  ⟨remaining_length_decode_amended.1 16 [129, 128] .Connect rfl (by decide) rfl,
   remaining_length_decode_amended.2 48 [10] .Publish rfl rfl⟩

/-- C1: at the failing input (connect flags `0b00000010`, clean-session
bit set) `ConnAck::new_success` still reports session-present = true —
the source compares `flags & 0b10` against 1, which never holds, so the
session-present flag does not follow the clean-session bit as claimed.
Remaining length 2 and return code 0 hold as claimed. -/
theorem connack_new_success_session_present_bug :
    Nat.land 2 2 ≠ 0 ∧
    (ConnAck.new_success ⟨"MQTT", 4, 2, 60⟩).variable_header.session_present
      = true ∧
    (ConnAck.new_success ⟨"MQTT", 4, 2, 60⟩).variable_header.return_code = 0 ∧
    (ConnAck.new_success ⟨"MQTT", 4, 2, 60⟩).fixed_header.remaining_length = 2 := by
  refine ⟨by decide, rfl, rfl, rfl⟩

/-- C5: the parser only logs client-id bound violations.  A zero-length
client id yields a Connect payload (client_id = `Some ""`), a 24-byte id
yields a payload as well, and a 23-byte id is accepted — the decode never
fails with `EmptyClientId`/`ClientIdTooLong` as claimed. -/
theorem client_id_bounds_only_logged :
    PayloadFactory.parse_payload (.connectHdr ⟨"MQTT", 4, 0, 60⟩) [0, 0] =
      some (.Conn ⟨some "", some "", some "", some "", some ""⟩) ∧
    PayloadFactory.parse_payload (.connectHdr ⟨"MQTT", 4, 0, 60⟩)
        (0 :: 24 :: List.replicate 24 97) =
      some (.Conn ⟨some (String.mk (List.replicate 24 'a')), some "", some "",
        some "", some ""⟩) ∧
    (PayloadFactory.parse_payload (.connectHdr ⟨"MQTT", 4, 0, 60⟩)
        (0 :: 23 :: List.replicate 23 97)).isSome = true := by
  refine ⟨rfl, rfl, rfl⟩

/-- C6: at the failing input, `ConnectHeader::new` accepts the 4-byte
protocol name "ABCD" — its guard is `len != 4 && name != "MQTT"`, so any
4-byte name passes.  "MQTT" is accepted and the short name "MQT" is
rejected, as claimed. -/
theorem protocol_name_four_byte_accepted :
    ConnectHeader.new "ABCD" 4 0 60 = .ok ⟨"ABCD", 4, 0, 60⟩ ∧
    ConnectHeader.new "MQTT" 4 0 60 = .ok ⟨"MQTT", 4, 0, 60⟩ ∧
    ConnectHeader.new "MQT" 4 0 60 = .error "Invalid Protocol Name" := by
  refine ⟨rfl, rfl, rfl⟩

/-- C8: the codec paths panic (modelled as `none`) on protocol-level
malformed input instead of returning an error value: Connect
variable-header decode on an empty or 3-byte buffer and on invalid UTF-8,
Publish variable-header decode on an empty buffer, payload string
extraction on a 1-byte buffer, Connect payload parsing on an empty
buffer, and the Publish packet assembler on a 1-byte frame. -/
theorem codec_paths_panic_on_malformed_input :
    ConnectHeader.from_bytes [] = none ∧
    ConnectHeader.from_bytes [77, 81, 84] = none ∧
    ConnectHeader.from_bytes [255, 255, 255, 255, 4, 0, 0, 60] = none ∧
    PublishHeader.from_bytes [] = none ∧
    PayloadFactory.extract_utf8_string [0] 0 = none ∧
    PayloadFactory.parse_payload (.connectHdr ⟨"MQTT", 4, 0, 60⟩) [] = none ∧
    Publish.from_bytes [48] = none := by
  refine ⟨rfl, rfl, rfl, rfl, rfl, rfl, rfl⟩

/-- C2: at the failing input (a registry with two connected and one
disconnected subscriber of "sensors/temp", a QoS-0 publish to that
topic), the broker's publish arm updates `last_seen` of exactly the
matching connected clients but produces no delivery event at all — the
source's QoS-0 loop body only calls `update_last_seen`, never
`ClientState::publish`, so no subscriber receives the packet bytes. -/
theorem qos0_publish_updates_last_seen_but_delivers_nothing :
    Broker.handlePublish
      [("c1", ⟨"c1", .Connected, ["sensors/temp"], 0, 60, 1⟩),
       ("c2", ⟨"c2", .Connected, ["sensors/temp"], 0, 60, 2⟩),
       ("c3", ⟨"c3", .Disconnected, ["sensors/temp"], 0, 60, 3⟩)]
      ⟨⟨.Publish, 0, 17, 1⟩, ⟨"sensors/temp", 1⟩, .Pub [1, 2, 3]⟩ 5 =
    ⟨[("c1", ⟨"c1", .Connected, ["sensors/temp"], 5, 60, 1⟩),
      ("c2", ⟨"c2", .Connected, ["sensors/temp"], 5, 60, 2⟩),
      ("c3", ⟨"c3", .Disconnected, ["sensors/temp"], 0, 60, 3⟩)],
     [], none⟩ := rfl

/-- `contains_key` answers exactly whether `get` finds an entry. -/
theorem containsKey_eq_isSome_lookup (r : Registry) (cid : String) :
    Registry.containsKey r cid = (Registry.lookup r cid).isSome := by
  induction r with
  | nil => rfl
  | cons kv rest ih =>
      obtain ⟨k, v⟩ := kv
      by_cases hk : k = cid
      · simp [Registry.containsKey, Registry.lookup, hk]
      · simp [Registry.containsKey, Registry.lookup, hk, ih]

/-- After an insert, looking the key up finds the inserted state. -/
theorem lookup_insert_self (r : Registry) (cid : String) (cs : ClientState) :
    Registry.lookup (Registry.insert r cid cs) cid = some cs := by
  induction r with
  | nil => simp [Registry.insert, Registry.lookup]
  | cons kv rest ih =>
      obtain ⟨k, v⟩ := kv
      by_cases hk : k = cid
      · simp [Registry.insert, Registry.lookup, hk]
      · simp [Registry.insert, Registry.lookup, hk, ih]

/-- After an insert into a registry with unique keys (the `HashMap`
invariant), the registry holds exactly one entry for the key. -/
theorem countKey_insert_of_nodup (r : Registry) (cid : String)
    (cs : ClientState) (h : (r.map Prod.fst).Nodup) :
    Registry.countKey (Registry.insert r cid cs) cid = 1 := by
  induction r with
  | nil => simp [Registry.insert, Registry.countKey]
  | cons kv rest ih =>
      obtain ⟨k, v⟩ := kv
      simp only [List.map_cons, List.nodup_cons] at h
      by_cases hk : k = cid
      · subst hk
        simp only [Registry.insert, beq_self_eq_true, if_pos,
          Registry.countKey, List.map_cons, List.count_cons_self]
        rw [List.count_eq_zero_of_not_mem h.1]
      · simp only [Registry.insert, beq_iff_eq, if_neg hk, Registry.countKey,
          List.map_cons, List.count_cons]
        have h2 := ih h.2
        simp only [Registry.countKey] at h2
        simp [hk, h2]

/-- C7: a successful Connect command for an already-registered client id
answers the ConnAck-accept, leaves exactly one registry entry under that
id — the freshly installed one: status Connected, `last_seen` = now,
`keep_alive` from the Connect header, empty subscription set — and
`is_client_connected` reports it. -/
theorem connect_command_evicts_and_installs
    (clients : Registry) (packet : Connect) (ws now : Nat) (cid : String)
    (cp : ConnectPayload)
    (hnodup : (clients.map Prod.fst).Nodup)
    (hpay : packet.payload = .Conn cp)
    (hcid : cp.client_id = some cid)
    (_hreg : Broker.is_client_connected clients cid = true) :
    (Broker.handleConnect clients packet ws now).2 =
      .ok (ConnAck.new_success packet.variable_header) ∧
    Registry.countKey (Broker.handleConnect clients packet ws now).1 cid = 1 ∧
    Registry.lookup (Broker.handleConnect clients packet ws now).1 cid =
      some ⟨cid, .Connected, [], now, packet.variable_header.keep_alive, ws⟩ ∧
    Broker.is_client_connected (Broker.handleConnect clients packet ws now).1
      cid = true := by
  simp only [Broker.handleConnect, hpay, hcid, Broker.add_client]
  refine ⟨trivial, countKey_insert_of_nodup clients cid _ hnodup,
    lookup_insert_self clients cid _, ?_⟩
  rw [Broker.is_client_connected, containsKey_eq_isSome_lookup,
    lookup_insert_self]
  rfl

/-- C7 witness: a duplicate Connect for id "dup" at a concrete one-entry
registry. -/
theorem connect_command_evicts_and_installs_witness :
    (Broker.handleConnect [("dup", ⟨"dup", .Connected, ["t"], 0, 30, 7⟩)]
        ⟨⟨.Connect, 0, 10, 1⟩, ⟨"MQTT", 4, 0, 60⟩,
         .Conn ⟨some "dup", some "", some "", some "", some ""⟩⟩ 9 42).2 =
      .ok (ConnAck.new_success ⟨"MQTT", 4, 0, 60⟩) ∧
    Registry.countKey
      (Broker.handleConnect [("dup", ⟨"dup", .Connected, ["t"], 0, 30, 7⟩)]
        ⟨⟨.Connect, 0, 10, 1⟩, ⟨"MQTT", 4, 0, 60⟩,
         .Conn ⟨some "dup", some "", some "", some "", some ""⟩⟩ 9 42).1
      "dup" = 1 ∧
    Registry.lookup
      (Broker.handleConnect [("dup", ⟨"dup", .Connected, ["t"], 0, 30, 7⟩)]
        ⟨⟨.Connect, 0, 10, 1⟩, ⟨"MQTT", 4, 0, 60⟩,
         .Conn ⟨some "dup", some "", some "", some "", some ""⟩⟩ 9 42).1
      "dup" = some ⟨"dup", .Connected, [], 42, 60, 9⟩ ∧
    Broker.is_client_connected
      (Broker.handleConnect [("dup", ⟨"dup", .Connected, ["t"], 0, 30, 7⟩)]
        ⟨⟨.Connect, 0, 10, 1⟩, ⟨"MQTT", 4, 0, 60⟩,
         .Conn ⟨some "dup", some "", some "", some "", some ""⟩⟩ 9 42).1
      "dup" = true :=
  connect_command_evicts_and_installs _ _ 9 42 "dup" _ (by simp) rfl rfl rfl

/-- C9 counterexample: with connect flags 0 (will, username and password
bits all clear) the parsed Connect payload still carries every optional
field as `Some ""` — the fields are never absent, contradicting
"when a flag is clear the corresponding field is absent". -/
theorem connect_payload_clear_flag_fields_not_absent :
    PayloadFactory.parse_payload (.connectHdr ⟨"MQTT", 4, 0, 60⟩)
        [0, 4, 116, 101, 115, 116] =
      some (.Conn ⟨some "test", some "", some "", some "", some ""⟩) ∧
    Nat.land 0 PayloadFactory.WILL_FLAG = 0 ∧
    Nat.land 0 PayloadFactory.USER_NAME_FLAG = 0 ∧
    Nat.land 0 PayloadFactory.PASSWORD_FLAG = 0 ∧
    (some "" : Option String) ≠ none := by
  refine ⟨rfl, rfl, rfl, rfl, by decide⟩

/-- C9 as amended: every successfully parsed Connect payload carries all
five fields as `Some`; the will-topic/will-message, username and password
strings are parsed from the payload bytes exactly when the corresponding
connect-flag bit (bit 2, bit 7, bit 6) is set, and when a flag is clear
the corresponding field holds the empty string (it is present, not
absent). -/
theorem connect_payload_optional_fields_amended :
    ∀ (ch : ConnectHeader) (data : List Nat) (cp : ConnectPayload),
      PayloadFactory.parse_payload (.connectHdr ch) data = some (.Conn cp) →
      (cp.client_id.isSome ∧ cp.will_topic.isSome ∧ cp.will_message.isSome ∧
        cp.username.isSome ∧ cp.password.isSome) ∧
      (Nat.land ch.connect_flags PayloadFactory.WILL_FLAG = 0 →
        cp.will_topic = some "" ∧ cp.will_message = some "") ∧
      (Nat.land ch.connect_flags PayloadFactory.USER_NAME_FLAG = 0 →
        cp.username = some "") ∧
      (Nat.land ch.connect_flags PayloadFactory.PASSWORD_FLAG = 0 →
        cp.password = some "") := by
  intro ch data cp h
  by_cases hw : Nat.land ch.connect_flags PayloadFactory.WILL_FLAG = 0 <;>
    by_cases hu : Nat.land ch.connect_flags PayloadFactory.USER_NAME_FLAG = 0 <;>
      by_cases hp : Nat.land ch.connect_flags PayloadFactory.PASSWORD_FLAG = 0 <;>
        simp only [PayloadFactory.parse_payload, hw, hu, hp, ne_eq,
          not_true_eq_false, not_false_eq_true, if_true, if_false,
          ite_true, ite_false, Option.bind_eq_some, Option.pure_def,
          Option.some.injEq, bind, Option.bind_eq_some] at h <;>
        obtain ⟨⟨l0, cid, i1⟩, h1, h⟩ := h <;>
        (repeat
          first
          | (obtain ⟨_, rfl, h⟩ := h)
          | (obtain ⟨_, _, h⟩ := h)) <;>
        simp [hw, hu, hp]

/-- C9 amended witness: the amended statement at a concrete parse with
all three flags clear. -/
theorem connect_payload_optional_fields_amended_witness :
    ((some "test" : Option String).isSome ∧
      (some "" : Option String).isSome ∧ (some "" : Option String).isSome ∧
      (some "" : Option String).isSome ∧ (some "" : Option String).isSome) ∧
    (Nat.land 0 PayloadFactory.WILL_FLAG = 0 →
      (some "" : Option String) = some "" ∧
        (some "" : Option String) = some "") ∧
    (Nat.land 0 PayloadFactory.USER_NAME_FLAG = 0 →
      (some "" : Option String) = some "") ∧
    (Nat.land 0 PayloadFactory.PASSWORD_FLAG = 0 →
      (some "" : Option String) = some "") :=
  connect_payload_optional_fields_amended ⟨"MQTT", 4, 0, 60⟩
    [0, 4, 116, 101, 115, 116]
    ⟨some "test", some "", some "", some "", some ""⟩ rfl

/-- C10: `is_client_connected` answers key presence only: it equals
`isSome` of the registry lookup, whatever the entry's connection status
(a Disconnected or AwaitingReconnect entry still reports true), and is
false exactly when no entry exists under the id. -/
theorem is_client_connected_iff_key_present (clients : Registry)
    (client_id : String) :
    Broker.is_client_connected clients client_id =
      (Registry.lookup clients client_id).isSome :=
  containsKey_eq_isSome_lookup clients client_id

end MqttBroker

